import Mathlib

/-!
Verification development for the record reconciliation and standardization
engine of the `pmtiles_backend` repository
(`src/downloading_and_geojson_processing/data_merger.py` and
`src/downloading_and_geojson_processing/data_standardizer.py`).

The Python code is shallowly embedded: JSON scalar attribute values become the
`Value` inductive; Python `dict`s carrying attributes become association lists
with insertion-order-preserving update (`propsSet`), matching CPython dict
semantics; GeoJSON geometries become the `Geom` inductive over exact rational
ordinates; operations that can raise Python exceptions return `Except String`.
Calls into external libraries (shapely geometric predicates, geopandas
reprojection, BeautifulSoup HTML parsing) are modelled as explicit function
parameters of the embedded operations, with a concrete executable instance
(`rectGeomOps`) supplied for the worked examples; the instance's predicates
agree with shapely's on the axis-aligned rectangles and points used in those
examples.
-/

namespace Pmtiles

/-! ### Python string helpers

`pyStripChars` models `str.strip(chars)`: removing every leading and trailing
character that occurs in `chars` (a character set, not a sequence).
`pyRStripChars` removes only trailing ones.  `pyStripWs` models the
no-argument `str.strip()` on the whitespace characters that occur in this
code's data (space, tab, newline, carriage return). -/

def stripEndChars (cs : List Char) (l : List Char) : List Char :=
  (l.reverse.dropWhile (fun c => cs.contains c)).reverse

def pyStripChars (cs : List Char) (s : String) : String :=
  String.mk (stripEndChars cs ((s.data).dropWhile (fun c => cs.contains c)))

def pyRStripChars (cs : List Char) (s : String) : String :=
  String.mk (stripEndChars cs s.data)

def wsChars : List Char := [' ', '\t', '\n', '\r']

def pyStripWs (s : String) : String := pyStripChars wsChars s

def pyRStripWs (s : String) : String := pyRStripChars wsChars s

/-- Python `str.lower()` on the ASCII range (all source-name strings in this
repository are ASCII). -/
def charLower (c : Char) : Char :=
  if 'A' ≤ c ∧ c ≤ 'Z' then Char.ofNat (c.toNat + 32) else c

def pyLower (s : String) : String := String.mk (s.data.map charLower)

/-- Membership of one character list inside another as a contiguous segment;
models Python's `sub in s` test on strings. -/
def segIn (pat : List Char) : List Char → Bool
  | [] => pat.isEmpty
  | c :: rest => pat.isPrefixOf (c :: rest) || segIn pat rest

def strContainsSeg (s pat : String) : Bool := segIn pat.data s.data

/-! ### Attribute values and attribute mappings

`Value` models the JSON scalars that appear as attribute values in this
repository's data.  `truthy` is Python truthiness; `toPyStr` is Python `str`
rendering (for rational numbers that are not integers the rendering is a
plain fraction; the claims under study only render string values). -/

inductive Value where
  | vStr (s : String)
  | vNum (q : Rat)
  | vBool (b : Bool)
  | vNull
deriving DecidableEq, Repr

def Value.truthy : Value → Bool
  | .vStr s => !s.isEmpty
  | .vNum q => q ≠ 0
  | .vBool b => b
  | .vNull => false

def Value.toPyStr : Value → String
  | .vStr s => s
  | .vNum q => if q.den = 1 then toString q.num else toString q
  | .vBool b => if b then "True" else "False"
  | .vNull => "None"

/-- A Python dict modelled as an association list in insertion order (CPython
dicts preserve insertion order).  Lookup returns the value at the first
matching key. -/
def alistGet? {α β : Type} [DecidableEq α] (d : List (α × β)) (k : α) : Option β :=
  match d with
  | [] => none
  | (k', v) :: rest => if k' = k then some v else alistGet? rest k

/-- `d[k] = v` on a Python dict: replace the value in place if the key is
present (keeping its position), otherwise append the new pair at the end. -/
def alistSet {α β : Type} [DecidableEq α] (d : List (α × β)) (k : α) (v : β) : List (α × β) :=
  match d with
  | [] => [(k, v)]
  | (k', v') :: rest => if k' = k then (k', v) :: rest else (k', v') :: alistSet rest k v

/-- An attribute mapping (`properties` dict). -/
abbrev Props := List (String × Value)

def propsGet? (p : Props) (k : String) : Option Value := alistGet? p k

def propsGetD (p : Props) (k : String) (d : Value) : Value :=
  (propsGet? p k).getD d

def propsSet (p : Props) (k : String) (v : Value) : Props := alistSet p k v

def propsKeys (p : Props) : List String := p.map Prod.fst

/-- Lookup dicts keyed by attribute values (the secondary lookups of the
join operations). -/
abbrev VDict (β : Type) := List (Value × β)

/-! ### Geometry and features

`Geom` is the parsed GeoJSON geometry.  Ordinates are exact rationals (JSON
numbers).  A position is a list of ordinates (possibly carrying a third,
elevation ordinate). -/

inductive Geom where
  | point (c : List Rat)
  | lineString (ps : List (List Rat))
  | polygon (rings : List (List (List Rat)))
  | multiPolygon (pp : List (List (List (List Rat))))
deriving DecidableEq, Repr

/-- Truthiness of `geometry['coordinates']` (nonempty outermost array). -/
def Geom.coordsTruthy : Geom → Bool
  | .point c => !c.isEmpty
  | .lineString ps => !ps.isEmpty
  | .polygon rings => !rings.isEmpty
  | .multiPolygon pp => !pp.isEmpty

/-- A GeoJSON feature.  The attribute mapping is modelled as always present
(GeoJSON requires a `properties` member); `fid` is the optional top-level
`id` member; `geometry := none` models both a `null` and a missing
geometry member (both read back as `None` through `feature.get("geometry")`). -/
structure Feature where
  fid : Option Value
  props : Props
  geometry : Option Geom
deriving DecidableEq, Repr

/-- A feature collection together with the optional `crs.properties.name`
metadata string (`none` when the collection has no `crs` member). -/
structure GeoData where
  crsName : Option String
  features : List Feature
deriving DecidableEq, Repr

/-! ### Exact-attribute join: `DataMerger.merge_by_id` (data_merger.py 17-49)

Builds a lookup from truthy secondary key values to the secondary record's
full attribute mapping, then for each primary record copies every secondary
attribute with a truthy key and a truthy value. -/

/-- The attribute copy loop `for key, value in ...: if <cond>: props[key] = value`
that the four merge operations repeat, abstracted over the per-site
condition. -/
def foldSetIf (cond : String → Value → Bool) (base : Props) : Props → Props
  | [] => base
  | (k, v) :: rest => foldSetIf cond (if cond k v then propsSet base k v else base) rest

/-- `if key and value: props[key] = value`, the loop of `merge_by_id`
(lines 36-38) and of `spatial_join` (lines 104-106). -/
def mergePropsTruthy (base upd : Props) : Props :=
  foldSetIf (fun k v => k ≠ "" && v.truthy) base upd

/-- Lines 20-25: secondary lookup keyed by the truthy values of the secondary
id field. -/
def secondaryLookup (sidField : String) : List Feature → VDict Props → VDict Props
  | [], acc => acc
  | f :: rest, acc =>
    secondaryLookup sidField rest
      (match propsGet? f.props sidField with
       | some idv => if idv.truthy then alistSet acc idv f.props else acc
       | none => acc)

/-- Lines 29-44: one primary record of the merge loop. -/
def mergeByIdFeature (lookup : VDict Props) (pidField : String) (f : Feature) : Feature :=
  let props := f.props
  let props' :=
    match propsGet? props pidField with
    | some pid =>
      if pid.truthy then
        match alistGet? lookup pid with
        | some sprops => mergePropsTruthy props sprops
        | none => props
      else props
    | none => props
  { fid := none, props := props', geometry := f.geometry }

def merge_by_id (primary secondary : GeoData) (pidField sidField : String) : GeoData :=
  let lookup := secondaryLookup sidField secondary.features []
  { crsName := none
    features := primary.features.map (mergeByIdFeature lookup pidField) }

/-! ### Spatial join: `DataMerger.spatial_join` (data_merger.py 51-113)

The shapely operations the source calls (`geom.contains`, `geom.intersects`,
and the bounding-box candidate query of `STRtree.query`) are external library
code; they are passed in as a `GeomOps` record.  `STRtree.query` returns the
indexed geometries whose bounding boxes intersect the query geometry's; its
order is unspecified by the library and is modelled as index order.  In the
model every candidate is a geometry, so the
`isinstance(candidate, BaseGeometry)` guard of line 81 always passes. -/

structure GeomOps where
  containsG : Geom → Geom → Bool
  intersectsG : Geom → Geom → Bool
  bboxHit : Geom → Geom → Bool

/-- The state built by lines 54-65: the geometry list, the parallel feature
list (features with falsy geometry skipped), and the WKT-keyed dict
`geom_wkt_to_idx` (keyed here by the geometry itself, since two geometries
have equal WKT exactly when they are structurally equal; a later duplicate
geometry overwrites the index stored for an earlier one). -/
structure SpatialIndex where
  geoms : List Geom
  feats : List Feature
  wktIdx : List (Geom × Nat)

def buildIndexAux : List Feature → SpatialIndex → SpatialIndex
  | [], acc => acc
  | f :: rest, acc =>
    match f.geometry with
    | none => buildIndexAux rest acc
    | some g =>
      buildIndexAux rest
        { geoms := acc.geoms ++ [g]
          feats := acc.feats ++ [f]
          wktIdx := alistSet acc.wktIdx g acc.geoms.length }

def buildIndex (feats : List Feature) : SpatialIndex :=
  buildIndexAux feats ⟨[], [], []⟩

def streeQuery (ops : GeomOps) (geoms : List Geom) (q : Geom) : List Geom :=
  geoms.filter (fun g => ops.bboxHit g q)

/-- Lines 79-90: scan the candidates in order; skip a candidate whose WKT is
not in the dict (the "shouldn't happen" branch); the first candidate that
contains **or** intersects the address geometry wins. -/
def findParcelIdx (ops : GeomOps) (d : List (Geom × Nat)) (addrGeom : Geom) :
    List Geom → Option Nat
  | [] => none
  | c :: rest =>
    match alistGet? d c with
    | none => findParcelIdx ops d addrGeom rest
    | some idx =>
      if ops.containsG c addrGeom || ops.intersectsG c addrGeom then some idx
      else findParcelIdx ops d addrGeom rest

/-- `collections.defaultdict(list)` append: extend the list at the key,
creating the entry at the end on first use (dict insertion order). -/
def ddAppend (d : List (Nat × List Feature)) (k : Nat) (a : Feature) :
    List (Nat × List Feature) :=
  match d with
  | [] => [(k, [a])]
  | (k', l) :: rest => if k' = k then (k', l ++ [a]) :: rest else (k', l) :: ddAppend rest k a

/-- Lines 74-92: the per-address loop.  `shape(addr_feature["geometry"])`
raises when the geometry member is missing (`KeyError`) or null
(`AttributeError` inside `shape`); both are modelled as an error result. -/
def matchAddresses (ops : GeomOps) (idx : SpatialIndex) :
    List Feature → List (Nat × List Feature) → List Feature →
    Except String (List (Nat × List Feature) × List Feature)
  | [], acc, unmatched => .ok (acc, unmatched)
  | a :: rest, acc, unmatched =>
    match a.geometry with
    | none => .error "shape: address geometry missing or null"
    | some ag =>
      let cands := streeQuery ops idx.geoms ag
      match findParcelIdx ops idx.wktIdx ag cands with
      | some i => matchAddresses ops idx rest (ddAppend acc i a) unmatched
      | none => matchAddresses ops idx rest acc (unmatched ++ [a])

def modifyAt {α : Type} : List α → Nat → (α → α) → List α
  | [], _, _ => []
  | x :: rest, 0, f => f x :: rest
  | x :: rest, n + 1, f => x :: modifyAt rest n f

/-- Lines 95-107: apply the first matched address's attributes to each
matched parcel (in dict insertion order) and accumulate
`total_matched_addresses` (the multiple-address report of lines 98-101 is a
print without semantic effect and is not modelled). -/
def applyAddresses : List (Nat × List Feature) → List Feature → Nat → List Feature × Nat
  | [], feats, total => (feats, total)
  | (i, addrList) :: rest, feats, total =>
    let aprops := (addrList.headD ⟨none, [], none⟩).props
    applyAddresses rest
      (modifyAt feats i (fun pf => { pf with props := mergePropsTruthy pf.props aprops }))
      (total + addrList.length)

/-- `parcel_features[idx]` aliases the feature dicts inside
`parcel_data["features"]`, so the in-place property updates are visible in
the returned collection: rebuild the full feature list by replacing each
geometry-bearing feature with its (possibly updated) copy, in order. -/
def reassemble : List Feature → List Feature → List Feature
  | [], _ => []
  | f :: rest, ups =>
    match f.geometry with
    | none => f :: reassemble rest ups
    | some _ => ups.headD f :: reassemble rest ups.tail

/-- The result of `spatial_join`: the returned (mutated) parcel collection
plus the three summary counts printed on lines 109-111. -/
structure SpatialResult where
  collection : GeoData
  parcelsWithAddr : Nat
  totalMatched : Nat
  unmatchedCount : Nat
deriving DecidableEq, Repr

/-- Lines 51-113.  The source's `parcel_id_field` / `address_id_field`
parameters feed only the multiple-address diagnostic print of lines 98-101,
which has no semantic effect; they are omitted from the model. -/
def spatial_join (ops : GeomOps) (parcelData addressData : GeoData) :
    Except String SpatialResult :=
  let idx := buildIndex parcelData.features
  match matchAddresses ops idx addressData.features [] [] with
  | .error e => .error e
  | .ok (assigns, unmatched) =>
    let applied := applyAddresses assigns idx.feats 0
    .ok { collection := { crsName := parcelData.crsName
                          features := reassemble parcelData.features applied.1 }
          parcelsWithAddr := assigns.length
          totalMatched := applied.2
          unmatchedCount := unmatched.length }

/-! ### Structured-text-derived join: `DataMerger.merge_by_pidn` (115-167)

`_extract_properties_from_description` parses HTML with BeautifulSoup
(external library); it is passed in as the parameter `extract`, mapping the
value of the `description` attribute to the flat list of parsed label/value
string pairs. -/

/-- The copy loop `if k and v: properties[k] = v` over parsed string pairs
(lines 141-143 and 150-152); a string is truthy exactly when nonempty. -/
def mergeStrPropsTruthy (base : Props) (upd : List (String × String)) : Props :=
  foldSetIf (fun k v => k ≠ "" && v.truthy) base (upd.map (fun kv => (kv.1, Value.vStr kv.2)))

/-- Lines 118-126: PIDN-keyed lookup of parsed address properties; the PIDN
is the whitespace-stripped `pidn` entry of the parsed description. -/
def buildPidnLookup (extract : Value → List (String × String)) :
    List Feature → List (String × List (String × String)) →
    List (String × List (String × String))
  | [], acc => acc
  | f :: rest, acc =>
    let parsed := extract (propsGetD f.props "description" (.vStr ""))
    let pidn := pyStripWs ((alistGet? parsed "pidn").getD "")
    buildPidnLookup extract rest (if pidn ≠ "" then alistSet acc pidn parsed else acc)

/-- Lines 135-160: one ownership record of the update loop. -/
def mergeByPidnFeature (extract : Value → List (String × String))
    (lookup : List (String × List (String × String))) (f : Feature) : Feature :=
  let props := f.props
  let parsed := extract (propsGetD props "description" (.vStr ""))
  let props1 := mergeStrPropsTruthy props parsed
  let pidn := pyStripWs ((alistGet? parsed "pidn").getD "")
  let props2 :=
    if pidn ≠ "" then
      match alistGet? lookup pidn with
      | some addr => mergeStrPropsTruthy props1 addr
      | none => props1
    else props1
  { fid := f.fid, props := props2, geometry := f.geometry }

def merge_by_pidn (extract : Value → List (String × String))
    (parcelData addressData : GeoData) : GeoData :=
  let lookup := buildPidnLookup extract addressData.features []
  { crsName := none
    features := parcelData.features.map (mergeByPidnFeature extract lookup) }

/-! ### Scraped-data merge: `DataMerger.merge_scraped_data` (169-199) -/

/-- The copy loop `if key and value and key != merge_field` (lines 186-188). -/
def mergeTruthyExceptKey (ex : String) (base upd : Props) : Props :=
  foldSetIf (fun k v => k ≠ "" && v.truthy && k ≠ ex) base upd

/-- Lines 172-176: scraped lookup keyed by truthy merge-field values. -/
def scrapedLookup (mergeField : String) : List Props → VDict Props → VDict Props
  | [], acc => acc
  | item :: rest, acc =>
    scrapedLookup mergeField rest
      (match propsGet? item mergeField with
       | some mv => if mv.truthy then alistSet acc mv item else acc
       | none => acc)

/-- Lines 180-194: one parcel record of the merge loop. -/
def mergeScrapedFeature (lookup : VDict Props) (mergeField : String) (f : Feature) : Feature :=
  let props := f.props
  let props' :=
    match propsGet? props mergeField with
    | some mv =>
      if mv.truthy then
        match alistGet? lookup mv with
        | some item => mergeTruthyExceptKey mergeField props item
        | none => props
      else props
    | none => props
  { fid := none, props := props', geometry := f.geometry }

def merge_scraped_data (parcelData : GeoData) (scraped : List Props)
    (mergeField : String) : GeoData :=
  let lookup := scrapedLookup mergeField scraped []
  { crsName := none
    features := parcelData.features.map (mergeScrapedFeature lookup mergeField) }

/-! ### Cross-encoding join: `DataMerger.join_address_to_parcel` (229-270)

The file loading of `_load_json_any` and the final file write are I/O outside
the model; the join itself is modelled on the loaded record lists.  A loaded
record (`JRec`) is either a GeoJSON feature (`wrapped = true`, so
`feature.get('properties', feature)` yields its attribute mapping) or a bare
attribute dict from JSON/JSONL input (`wrapped = false`, the fallback yields
the record itself).  Line 238's conditional
`props[address_key] if isinstance(address_key, str) else props[address_key]`
performs the same strict lookup in both branches and is modelled once. -/

structure JRec where
  wrapped : Bool
  props : Props
  geometry : Option Geom
deriving DecidableEq, Repr

/-- Strict Python subscript `props[key]`: raises `KeyError` when absent. -/
def strictGet (p : Props) (k : String) : Except String Value :=
  match propsGet? p k with
  | some v => .ok v
  | none => .error ("KeyError: " ++ k)

/-- Lines 235-239: the address lookup; a missing address key aborts with
`KeyError`. -/
def buildAddressLookup (addressKey : String) : List JRec → VDict Props →
    Except String (VDict Props)
  | [], acc => .ok acc
  | r :: rest, acc =>
    match strictGet r.props addressKey with
    | .error e => .error e
    | .ok key => buildAddressLookup addressKey rest (alistSet acc key r.props)

/-- Lines 248-251: merge all address fields except the address key itself. -/
def copyAllExceptKey (ex : String) (base upd : Props) : Props :=
  foldSetIf (fun k _ => k ≠ ex) base upd

/-- Lines 243-254: the parcel loop; a missing parcel key aborts with
`KeyError`.  For wrapped records the updated mapping is stored back under
`properties`; bare records are their own mapping, updated in place. -/
def joinParcels (lookup : VDict Props) (parcelKey addressKey : String) :
    List JRec → Except String (List JRec)
  | [] => .ok []
  | r :: rest =>
    match strictGet r.props parcelKey with
    | .error e => .error e
    | .ok key =>
      let props' :=
        match alistGet? lookup key with
        | some aprops => copyAllExceptKey addressKey r.props aprops
        | none => r.props
      match joinParcels lookup parcelKey addressKey rest with
      | .error e => .error e
      | .ok out => .ok ({ r with props := props' } :: out)

def join_address_to_parcel (parcels addrs : List JRec)
    (parcelKey addressKey : String) : Except String (List JRec) :=
  match buildAddressLookup addressKey addrs [] with
  | .error e => .error e
  | .ok lookup => joinParcels lookup parcelKey addressKey parcels

/-! ### CRS detection: `DataStandardizer.detect_coordinate_system`
(data_standardizer.py 33-86) -/

/-- Lines 42-49: match the explicit `crs.properties.name` metadata against
the known identifiers (Python substring tests); `none` when nothing matches,
in which case the source falls through to the coordinate heuristic. -/
def matchCrsName : Option String → Option String
  | none => none
  | some name =>
    if strContainsSeg name "3738" then some "EPSG:3738"
    else if strContainsSeg name "EPSG:3739" || strContainsSeg name "EPSG:2677" then
      some "EPSG:3739"
    else if strContainsSeg name "EPSG:4326" then some "EPSG:4326"
    else none

/-- Lines 53-59: a feature is valid for detection when its geometry is
present and its `coordinates` member is truthy (nonempty). -/
def featureGeomTruthy (f : Feature) : Bool :=
  match f.geometry with
  | some g => g.coordsTruthy
  | none => false

def firstValidFeature (feats : List Feature) : Option Feature :=
  feats.find? featureGeomTruthy

/-- Lines 74-86: `if not coords` defaults to WGS84; `coords[1]` on a
one-ordinate position raises `IndexError`; then the range test (geographic
window first, then the strictly-positive 1,000,000 threshold). -/
def detectFromCoords (c : List Rat) : Except String String :=
  match c with
  | [] => .ok "EPSG:4326"
  | [_] => .error "IndexError: list index out of range"
  | x :: y :: _ =>
    if -180 ≤ x ∧ x ≤ 180 ∧ -90 ≤ y ∧ y ≤ 90 then .ok "EPSG:4326"
    else if 1000000 < x ∨ 1000000 < y then .ok "EPSG:3739"
    else .ok "EPSG:4326"

/-- Lines 65-76: extract the first position of the first valid geometry;
only `Polygon` (`coordinates[0][0]`) and `MultiPolygon`
(`coordinates[0][0][0]`) are handled, anything else leaves `coords = None`
and defaults to WGS84.  Subscripting an empty inner list raises
`IndexError`. -/
def detectFromGeom : Geom → Except String String
  | .polygon rings =>
    match rings with
    | [] => .error "IndexError: list index out of range"
    | r0 :: _ =>
      match r0 with
      | [] => .error "IndexError: list index out of range"
      | c0 :: _ => detectFromCoords c0
  | .multiPolygon pp =>
    match pp with
    | [] => .error "IndexError: list index out of range"
    | p0 :: _ =>
      match p0 with
      | [] => .error "IndexError: list index out of range"
      | r0 :: _ =>
        match r0 with
        | [] => .error "IndexError: list index out of range"
        | c0 :: _ => detectFromCoords c0
  | _ => .ok "EPSG:4326"

def detect_coordinate_system (d : GeoData) : Except String String :=
  if d.features.isEmpty then .ok "EPSG:4326"
  else
    match matchCrsName d.crsName with
    | some r => .ok r
    | none =>
      match firstValidFeature d.features with
      | none => .ok "EPSG:4326"
      | some f =>
        match f.geometry with
        | some g => detectFromGeom g
        | none => .ok "EPSG:4326"

/-! ### Dimension stripping and reprojection (data_standardizer.py 88-162) -/

/-- Truncate one position to its first two ordinates (lines 104-105,
110-112). -/
def pos2d (c : List Rat) : List Rat := if 2 < c.length then c.take 2 else c

/-- Lines 94-112: only `Polygon` and `MultiPolygon` coordinates are
traversed; other geometry types are left untouched. -/
def Geom.to2d : Geom → Geom
  | .polygon rings => .polygon (rings.map (fun r => r.map pos2d))
  | .multiPolygon pp => .multiPolygon (pp.map (fun p => p.map (fun r => r.map pos2d)))
  | g => g

def convert_to_2d_coordinates (d : GeoData) : GeoData :=
  { d with
    features := d.features.map (fun f => { f with geometry := f.geometry.map Geom.to2d }) }

/-- Modelled from the spec: `transform_coordinates` (lines 117-162) performs
the reprojection through the external geopandas/pyproj stack
(`GeoDataFrame.to_crs`), which is not part of this repository; per spec §4.2
it "must preserve ring/part nesting structure and feature order exactly".
The pointwise coordinate transformation is the parameter `reproject`
(applied from the detected source CRS to the target).  The round trip
through `GeoDataFrame` re-emits a bare `FeatureCollection`, so the explicit
CRS metadata is dropped. -/
def transform_coordinates (reproject : String → String → Geom → Geom)
    (d : GeoData) (sourceCrs targetCrs : String) : GeoData :=
  { crsName := none
    features := d.features.map (fun f =>
      { f with geometry := f.geometry.map (reproject sourceCrs targetCrs) }) }

/-! ### Standardization mapping (data_standardizer.py 164-267)

The per-county configuration document (`standardization_mappings` and
`standardized_links`, read from the config file by `get_mappings` /
`get_links_config`) is passed in as the `Mappings` and `LinksCfg`
parameters. -/

/-- Per canonical field: the ordered candidate source-field list. -/
abbrev Mappings := List (String × List String)

/-- One entry of `standardized_links`: an `Option` field is `some` exactly
when the corresponding key is present in the config dict (link config values
are strings). -/
structure LinkInfo where
  static_url : Option String
  base_url : Option String
  field : Option String
deriving DecidableEq, Repr

abbrev LinksCfg := List (String × LinkInfo)

/-- Lines 190-201 (`build_link`): `None`/empty config is falsy; a
`static_url` wins; otherwise `base_url` + the record's field value when that
value is truthy. -/
def buildLink (props : Props) (linkInfo : Option LinkInfo) : Option String :=
  match linkInfo with
  | none => none
  | some info =>
    if info.static_url.isNone && info.base_url.isNone && info.field.isNone then none
    else
      match info.static_url with
      | some u => some u
      | none =>
        match info.base_url, info.field with
        | some b, some fld =>
          match propsGet? props fld with
          | some v => if v.truthy then some (b ++ v.toPyStr) else none
          | none => none
        | _, _ => none

/-- `x or None` on an optional string: an empty (falsy) string degrades to
`None` (lines 223-225). -/
def orNoneStr : Option String → Option String
  | some s => if s ≠ "" then some s else none
  | none => none

/-- Lines 243-249 (`_extract_from_mapping`): first candidate wins; missing
mapping or missing key both yield `None`. -/
def extractFromMapping (props : Props) (mappings : Mappings) (fld : String) : Option Value :=
  match (alistGet? mappings fld).getD [] with
  | [] => none
  | key :: _ => propsGet? props key

/-- Lines 251-267 (`_extract_mailing_address`).  With more than one
configured candidate the composite line is built from the first four
candidate values (missing positional candidates default to the empty
string); the separator block is appended only when city, state or zip is
truthy, `.strip()`-ed of surrounding whitespace, and the final line is
`.strip(", ")`-ed, i.e. stripped of leading **and** trailing comma/space
characters.  Appending to (or stripping) a non-string first value raises in
Python, modelled as an error.  With exactly one candidate the raw value is
returned only when present and truthy, else `None`. -/
def extractMailingAddress (props : Props) (mappings : Mappings) :
    Except String (Option Value) :=
  let m := (alistGet? mappings "mailing_address").getD []
  if 1 < m.length then
    match propsGetD props (m.headD "") (.vStr "") with
    | .vStr a =>
      let city := if 1 < m.length then propsGetD props ((m.get? 1).getD "") (.vStr "") else .vStr ""
      let state := if 2 < m.length then propsGetD props ((m.get? 2).getD "") (.vStr "") else .vStr ""
      let zipV := if 3 < m.length then propsGetD props ((m.get? 3).getD "") (.vStr "") else .vStr ""
      let line :=
        if city.truthy || state.truthy || zipV.truthy then
          a ++ pyStripWs (", " ++ city.toPyStr ++ ", " ++ state.toPyStr ++ " " ++ zipV.toPyStr)
        else a
      .ok (some (.vStr (pyStripChars [',', ' '] line)))
    | _ => .error "TypeError: non-string mailing address value"
  else if m.length = 1 then
    match propsGet? props (m.headD "") with
    | some v => .ok (if v.truthy then some v else none)
    | none => .ok none
  else .ok none

/-! Python decimal rendering of the sequence number: `str(i)` and
`str.zfill(6)` (line 188; the argument here is always positive, so no sign
handling is needed). -/

def digitChar : Nat → Char
  | 0 => '0'
  | 1 => '1'
  | 2 => '2'
  | 3 => '3'
  | 4 => '4'
  | 5 => '5'
  | 6 => '6'
  | 7 => '7'
  | 8 => '8'
  | 9 => '9'
  | _ => '?'

/-- Big-endian decimal digits of `n`, classic accumulator loop.  Structural
recursion on a fuel argument (initialized to `n` itself, which bounds the
digit count) keeps the definition kernel-computable; the fuel-exhausted
base case is reached only for `n = 0`. -/
def natDigitsGo : Nat → Nat → List Char → List Char
  | 0, n, acc => digitChar (n % 10) :: acc
  | fuel + 1, n, acc =>
    if n < 10 then digitChar n :: acc
    else natDigitsGo fuel (n / 10) (digitChar (n % 10) :: acc)

def natStr (n : Nat) : String := String.mk (natDigitsGo n n [])

def zfill (w : Nat) (s : String) : String :=
  if s.length < w then String.mk (List.replicate (w - s.length) '0') ++ s else s

/-- Line 188: `f"{county_name.lower()}_{str(i).zfill(6)}"`. -/
def mkUid (county : String) (i : Nat) : String :=
  pyLower county ++ "_" ++ zfill 6 (natStr i)

/-- The fixed canonical output schema built on lines 208-230 (an `Option`
models a Python `None` entry). -/
structure CanonicalProps where
  global_parcel_uid : String
  county : String
  county_parcel_id_num : Option Value
  owner_name : Option Value
  physical_address : Option Value
  mailing_address : Option Value
  acreage : Option Value
  property_value : Option Value
  land_type_description : Option Value
  deed_reference : Option Value
  tax_year : Option Value
  owner_city : Option Value
  owner_state : Option Value
  owner_zip : Option Value
  property_details_link : Option String
  tax_details_link : Option String
  clerk_records_link : Option String
  raw_data : Props
deriving DecidableEq, Repr

structure SFeature where
  props : CanonicalProps
  geometry : Option Geom
deriving DecidableEq, Repr

/-- Lines 186-236: standardize one feature, `i` being the 1-based
enumeration index. -/
def standardizeFeature (mappings : Mappings) (links : LinksCfg) (countyName : String)
    (i : Nat) (f : Feature) : Except String SFeature :=
  let props := f.props
  match extractMailingAddress props mappings with
  | .error e => .error e
  | .ok mailing =>
    .ok { props :=
            { global_parcel_uid := mkUid countyName i
              county := countyName
              county_parcel_id_num := extractFromMapping props mappings "parcel_id"
              owner_name := extractFromMapping props mappings "owner_name"
              physical_address := extractFromMapping props mappings "physical_address"
              mailing_address := mailing
              acreage := extractFromMapping props mappings "acreage"
              property_value := extractFromMapping props mappings "property_value"
              land_type_description := extractFromMapping props mappings "land_type_description"
              deed_reference := extractFromMapping props mappings "deed_reference"
              tax_year := extractFromMapping props mappings "tax_year"
              owner_city := extractFromMapping props mappings "owner_city"
              owner_state := extractFromMapping props mappings "owner_state"
              owner_zip := extractFromMapping props mappings "owner_zip"
              property_details_link := orNoneStr (buildLink props (alistGet? links "property_details"))
              tax_details_link := orNoneStr (buildLink props (alistGet? links "tax_details"))
              clerk_records_link := orNoneStr (buildLink props (alistGet? links "clerk_records"))
              raw_data := props }
          geometry := f.geometry }

def standardizeLoop (mappings : Mappings) (links : LinksCfg) (countyName : String) :
    Nat → List Feature → Except String (List SFeature)
  | _, [] => .ok []
  | i, f :: rest =>
    match standardizeFeature mappings links countyName i f with
    | .error e => .error e
    | .ok sf =>
      match standardizeLoop mappings links countyName (i + 1) rest with
      | .error e => .error e
      | .ok out => .ok (sf :: out)

structure SGeoData where
  features : List SFeature
deriving DecidableEq, Repr

/-- Lines 164-241 (`standardize_ownership`): detect the CRS, reproject when
a state-plane system was detected, strip elevations, then standardize each
feature with 1-based enumeration. -/
def standardize_ownership (reproject : String → String → Geom → Geom)
    (mappings : Mappings) (links : LinksCfg)
    (countyData : GeoData) (countyName : String) : Except String SGeoData :=
  match detect_coordinate_system countyData with
  | .error e => .error e
  | .ok detected =>
    let d1 :=
      if detected = "EPSG:3739" ∨ detected = "EPSG:2677" ∨ detected = "EPSG:3738" then
        transform_coordinates reproject countyData detected "EPSG:4326"
      else countyData
    let d2 := convert_to_2d_coordinates d1
    match standardizeLoop mappings links countyName 1 d2.features with
    | .error e => .error e
    | .ok feats => .ok { features := feats }

/-! ### Claim-side formulations

The following definitions transcribe what the specification claims, to be
compared against the embedded source behaviour. -/

/-- The selection rule asserted by claim C1: among the queried candidates,
the first one for which containment holds; only if no candidate contains the
secondary geometry, the first one that intersects it (the chosen candidate
geometry resolves to a parcel index through the WKT dict, as in the code). -/
def claimFirstContainElseIntersect (ops : GeomOps) (d : List (Geom × Nat))
    (addrGeom : Geom) (cands : List Geom) : Option Nat :=
  match cands.find? (fun c => ops.containsG c addrGeom) with
  | some c => alistGet? d c
  | none =>
    match cands.find? (fun c => ops.intersectsG c addrGeom) with
    | some c => alistGet? d c
    | none => none

/-- The selection the source actually performs, phrased as a single
first-match scan: the first candidate that is present in the WKT dict and
contains **or** intersects the secondary geometry. -/
def firstHitIdx (ops : GeomOps) (d : List (Geom × Nat)) (addrGeom : Geom)
    (cands : List Geom) : Option Nat :=
  match cands.find? (fun c =>
      (alistGet? d c).isSome && (ops.containsG c addrGeom || ops.intersectsG c addrGeom)) with
  | some c => alistGet? d c
  | none => none

/-- The composite formula asserted by claim C7: candidate 0's value
concatenated with `", {c1}, {c2} {c3}"` and the **trailing** comma/space
characters trimmed (no leading trim). -/
def claimMailingCompose (a c1 c2 c3 : String) : String :=
  pyRStripChars [',', ' '] (a ++ ", " ++ c1 ++ ", " ++ c2 ++ " " ++ c3)

/-- The amended mailing-address rule: with at least two candidates, read the
first four candidate values (a missing positional candidate and a missing
key both default to the empty string); when at least one of city/state/zip
is truthy the line is candidate 0's value followed by the separator block
`", {city}, {state} {zip}"` right-trimmed of whitespace, otherwise
candidate 0's value alone; the line is finally stripped of leading **and**
trailing comma and space characters.  A non-string candidate-0 value is a
type error.  With exactly one candidate, the raw value when present and
truthy, else null. -/
def specMailingAddress (props : Props) (mappings : Mappings) :
    Except String (Option Value) :=
  match (alistGet? mappings "mailing_address").getD [] with
  | [] => .ok none
  | [k] =>
    match propsGet? props k with
    | some v => if v.truthy then .ok (some v) else .ok none
    | none => .ok none
  | k0 :: k1 :: rest =>
    match propsGetD props k0 (.vStr "") with
    | .vStr a =>
      let cnd : Option String → Value := fun o =>
        match o with
        | some k => propsGetD props k (.vStr "")
        | none => .vStr ""
      let city := propsGetD props k1 (.vStr "")
      let state := cnd (rest.get? 0)
      let zipV := cnd (rest.get? 1)
      let line :=
        if city.truthy || state.truthy || zipV.truthy then
          a ++ pyRStripWs (", " ++ city.toPyStr ++ ", " ++ state.toPyStr ++ " " ++ zipV.toPyStr)
        else a
      .ok (some (.vStr (pyStripChars [',', ' '] line)))
    | _ => .error "TypeError: non-string mailing address value"

/-- Decimal digit value of a character, and the number read from a digit
string (used to read the sequence number back out of an identifier). -/
def digitVal (c : Char) : Nat := c.toNat - 48

def valDigits (l : List Char) : Nat := l.foldl (fun a c => 10 * a + digitVal c) 0

/-- Read the sequence number back out of a generated identifier: drop the
lowercased source tag and the underscore, then read the decimal digits. -/
def seqOfUid (county uid : String) : Nat :=
  valDigits (uid.data.drop (pyLower county ++ "_").data.length)

/-- The first position of a geometry as the detection heuristic reads it
(`coordinates[0][0]` of a Polygon, `coordinates[0][0][0]` of a
MultiPolygon; other types yield nothing). -/
def geomFirstPos : Geom → Option (List Rat)
  | .polygon ((c0 :: _) :: _) => some c0
  | .multiPolygon (((c0 :: _) :: _) :: _) => some c0
  | _ => none

/-- The "first coordinate pair" of a record set: the first two ordinates of
the first position of the first feature with truthy coordinates. -/
def firstPairOf (d : GeoData) : Option (Rat × Rat) :=
  match firstValidFeature d.features with
  | some f =>
    match f.geometry with
    | some g =>
      match geomFirstPos g with
      | some (x :: y :: _) => some (x, y)
      | _ => none
    | none => none
  | none => none

/-- Total number of matched secondary records accumulated in the
`defaultdict`: the sum of the per-parcel list lengths. -/
def sumLens (entries : List (Nat × List Feature)) : Nat :=
  (entries.map (fun e => e.2.length)).sum

/-! ### A concrete instance of the geometric operations

`bboxOfGeom` computes the coordinate bounding box.  `rectGeomOps` realizes
the shapely predicates through bounding boxes: exact for the axis-aligned
rectangular polygons and point geometries used in the concrete examples
below (shapely's `contains` puts the boundary outside, hence the strict
inequalities; `intersects` includes the boundary). -/

def allPositions : Geom → List (List Rat)
  | .point c => [c]
  | .lineString ps => ps
  | .polygon rings => rings.flatten
  | .multiPolygon pp => (pp.map (fun p => p.flatten)).flatten

def posX (c : List Rat) : Rat := c.headD 0

def posY (c : List Rat) : Rat := (c.drop 1).headD 0

structure BBox where
  x0 : Rat
  y0 : Rat
  x1 : Rat
  y1 : Rat
deriving DecidableEq, Repr

def bboxOfGeom (g : Geom) : Option BBox :=
  match allPositions g with
  | [] => none
  | p :: ps =>
    some (ps.foldl
      (fun b c =>
        { x0 := min b.x0 (posX c), y0 := min b.y0 (posY c)
          x1 := max b.x1 (posX c), y1 := max b.y1 (posY c) })
      { x0 := posX p, y0 := posY p, x1 := posX p, y1 := posY p })

def rectContains (a b : Geom) : Bool :=
  match bboxOfGeom a, bboxOfGeom b with
  | some ba, some bb => ba.x0 < bb.x0 && bb.x1 < ba.x1 && ba.y0 < bb.y0 && bb.y1 < ba.y1
  | _, _ => false

def rectIntersects (a b : Geom) : Bool :=
  match bboxOfGeom a, bboxOfGeom b with
  | some ba, some bb => ba.x0 ≤ bb.x1 && bb.x0 ≤ ba.x1 && ba.y0 ≤ bb.y1 && bb.y0 ≤ ba.y1
  | _, _ => false

def rectGeomOps : GeomOps :=
  { containsG := rectContains, intersectsG := rectIntersects, bboxHit := rectIntersects }

/-! ### Concrete example data -/

/-- An axis-aligned rectangle as a GeoJSON polygon ring. -/
def boxGeom (x0 y0 x1 y1 : Rat) : Geom :=
  .polygon [[[x0, y0], [x1, y0], [x1, y1], [x0, y1], [x0, y0]]]

/-- Parcel whose boundary passes through the example address point. -/
def exParcelA : Feature := ⟨none, [("PIN", .vStr "P0")], some (boxGeom 0 0 10 10)⟩

/-- Parcel that strictly contains the example address point. -/
def exParcelB : Feature := ⟨none, [("PIN", .vStr "P1")], some (boxGeom 5 0 15 10)⟩

/-- Address point on `exParcelA`'s boundary and in `exParcelB`'s
interior. -/
def exAddrOnEdge : Feature :=
  ⟨none, [("FID", .vStr "A1"), ("street", .vStr "12 Elm St")], some (.point [10, 5])⟩

def exParcels : GeoData := ⟨none, [exParcelA, exParcelB]⟩

def exAddrs : GeoData := ⟨none, [exAddrOnEdge]⟩

/-- A secondary (address) record with null/missing geometry. -/
def exNullGeomAddr : Feature := ⟨none, [("FID", .vStr "A2")], none⟩

/-- A primary (parcel) record with null/missing geometry. -/
def exNullGeomParcel : Feature := ⟨none, [("PIN", .vStr "P9")], none⟩

/-- Record set with no CRS metadata whose first coordinate has an ordinate
of magnitude above 1,000,000 but negative sign. -/
def exNegStatePlane : GeoData :=
  ⟨none, [⟨none, [], some (.polygon [[[-2000000, 0], [-2000001, 0], [-2000001, 1]]])⟩]⟩

/-- Record set with no CRS metadata whose first coordinate has a positive
ordinate above 1,000,000. -/
def exPosStatePlane : GeoData :=
  ⟨none, [⟨none, [], some (.polygon [[[2000000, 500000], [2000001, 500000], [2000001, 500001]]])⟩]⟩

/-- Mailing-address mapping with four candidate fields. -/
def exMailMappings : Mappings := [("mailing_address", ["a", "b", "c", "d"])]

/-- Record with only the city field populated. -/
def exMailOnlyCity : Props := [("b", .vStr "Jackson")]

/-- Record with all four mailing-address fields populated. -/
def exMailFull : Props :=
  [("a", .vStr "12 Elm St"), ("b", .vStr "Jackson"), ("c", .vStr "WY"), ("d", .vStr "83001")]

/-- The outcome of the example spatial join: the boundary parcel `P0` (the
first in index order) receives the address attributes. -/
def exSpatialOutcome : SpatialResult :=
  { collection :=
      ⟨none,
       [⟨none, [("PIN", .vStr "P0"), ("FID", .vStr "A1"), ("street", .vStr "12 Elm St")],
         some (boxGeom 0 0 10 10)⟩,
        exParcelB]⟩
    parcelsWithAddr := 1
    totalMatched := 1
    unmatchedCount := 0 }

/-- Identity coordinate transformation (for runs already detected as
WGS84 the transformation is never invoked). -/
def idReproject : String → String → Geom → Geom := fun _ _ g => g

/-- Two-record input for a concrete standardization run. -/
def exStdData : GeoData :=
  ⟨none, [⟨none, [("OwnerName", .vStr "Jane")], none⟩, ⟨none, [], none⟩]⟩

/-- Canonical record with empty mappings: everything null except the
identifier, the county and the raw audit copy. -/
def exStdCanon (uid : String) (raw : Props) : CanonicalProps :=
  { global_parcel_uid := uid
    county := "Teton"
    county_parcel_id_num := none
    owner_name := none
    physical_address := none
    mailing_address := none
    acreage := none
    property_value := none
    land_type_description := none
    deed_reference := none
    tax_year := none
    owner_city := none
    owner_state := none
    owner_zip := none
    property_details_link := none
    tax_details_link := none
    clerk_records_link := none
    raw_data := raw }

def exStdOut : SGeoData :=
  ⟨[⟨exStdCanon "teton_000001" [("OwnerName", .vStr "Jane")], none⟩,
    ⟨exStdCanon "teton_000002" [], none⟩]⟩

/-- One-record primary set whose key has no match in an empty secondary. -/
def exC4Primary : GeoData := ⟨none, [⟨none, [("PIN", .vStr "x")], none⟩]⟩

def exC4Secondary : GeoData := ⟨none, []⟩

/-- Cross-encoding join example: wrapped parcel, bare address record. -/
def exC10Parcels : List JRec := [⟨true, [("P", .vStr "1")], none⟩]

def exC10Addrs : List JRec := [⟨false, [("A", .vStr "1"), ("extra", .vStr "E")], none⟩]

def exC10Out : List JRec := [⟨true, [("P", .vStr "1"), ("extra", .vStr "E")], none⟩]

/-- Address record lacking the configured join key `"A"`. -/
def exC8Addr : JRec := ⟨false, [("other", .vStr "1")], none⟩

/-! ## Supporting lemmas -/

theorem strDataAppend (a b : String) : (a ++ b).data = a.data ++ b.data := by
  cases a
  cases b
  rfl

theorem alistGet?_alistSet {α β : Type} [DecidableEq α] (d : List (α × β)) (k k' : α) (v : β) :
    alistGet? (alistSet d k v) k' = if k = k' then some v else alistGet? d k' := by
  induction d with
  | nil =>
    by_cases h : k = k' <;> simp [alistSet, alistGet?, h]
  | cons hd tl ih =>
    obtain ⟨k1, v1⟩ := hd
    simp only [alistSet]
    by_cases h1 : k1 = k
    · subst h1
      simp only [if_pos rfl, alistGet?]
      by_cases h2 : k1 = k' <;> simp [h2]
    · simp only [if_neg h1, alistGet?]
      by_cases h2 : k1 = k'
      · have hk : ¬ (k = k') := fun he => h1 (he ▸ h2)
        simp [h2, hk]
      · simp [h2, ih]

theorem propsGet?_propsSet_ne (b : Props) (k1 k : String) (v : Value) (h : k1 ≠ k) :
    propsGet? (propsSet b k1 v) k = propsGet? b k := by
  unfold propsGet? propsSet
  rw [alistGet?_alistSet, if_neg h]

theorem propsGet?_propsSet_self (b : Props) (k : String) (v : Value) :
    propsGet? (propsSet b k v) k = some v := by
  unfold propsGet? propsSet
  rw [alistGet?_alistSet, if_pos rfl]

theorem foldSetIf_get_stable (cond : String → Value → Bool) (upd : Props) :
    ∀ (base : Props) (k : String), (∀ v, (k, v) ∈ upd → cond k v = false) →
    propsGet? (foldSetIf cond base upd) k = propsGet? base k := by
  induction upd with
  | nil => intro base _ _; rfl
  | cons hd tl ih =>
    intro base k h
    obtain ⟨k1, v1⟩ := hd
    simp only [foldSetIf]
    rw [ih _ k (fun v hv => h v (List.mem_cons_of_mem _ hv))]
    by_cases hc : cond k1 v1 = true
    · rw [if_pos hc]
      have hk : k1 ≠ k := by
        intro he
        subst he
        rw [h v1 (List.mem_cons_self _ _)] at hc
        exact Bool.noConfusion hc
      exact propsGet?_propsSet_ne base k1 k v1 hk
    · rw [if_neg hc]

theorem foldSetIf_changed (cond : String → Value → Bool) (upd : Props) :
    ∀ (base : Props) (k : String),
    propsGet? (foldSetIf cond base upd) k ≠ propsGet? base k →
    ∃ v, (k, v) ∈ upd ∧ cond k v = true := by
  induction upd with
  | nil => intro base k h; exact absurd rfl h
  | cons hd tl ih =>
    intro base k h
    obtain ⟨k1, v1⟩ := hd
    simp only [foldSetIf] at h
    by_cases hc : cond k1 v1 = true
    · rw [if_pos hc] at h
      by_cases hch : propsGet? (foldSetIf cond (propsSet base k1 v1) tl) k
          = propsGet? (propsSet base k1 v1) k
      · rw [hch] at h
        have he : k1 = k := by
          by_contra hne
          exact h (propsGet?_propsSet_ne base k1 k v1 hne)
        subst he
        exact ⟨v1, List.mem_cons_self _ _, hc⟩
      · obtain ⟨v, hv, hcv⟩ := ih _ k hch
        exact ⟨v, List.mem_cons_of_mem _ hv, hcv⟩
    · rw [if_neg hc] at h
      obtain ⟨v, hv, hcv⟩ := ih _ k h
      exact ⟨v, List.mem_cons_of_mem _ hv, hcv⟩

theorem foldSetIf_get_nodup (cond : String → Value → Bool) (upd : Props) :
    ∀ (base : Props) (k : String), (propsKeys upd).Nodup →
    propsGet? (foldSetIf cond base upd) k =
      (match propsGet? upd k with
       | some v => if cond k v then some v else propsGet? base k
       | none => propsGet? base k) := by
  induction upd with
  | nil => intro base _ _; rfl
  | cons hd tl ih =>
    intro base k hnd
    obtain ⟨k1, v1⟩ := hd
    have hnd' : (propsKeys tl).Nodup := (List.nodup_cons.mp hnd).2
    have hk1 : k1 ∉ propsKeys tl := (List.nodup_cons.mp hnd).1
    simp only [foldSetIf]
    by_cases he : k1 = k
    · subst he
      have hget : propsGet? ((k1, v1) :: tl) k1 = some v1 := by
        simp [propsGet?, alistGet?]
      rw [hget]
      rw [foldSetIf_get_stable cond tl _ k1
        (fun v hv => ((hk1 (List.mem_map_of_mem Prod.fst hv)).elim))]
      by_cases hc : cond k1 v1 = true
      · rw [if_pos hc]
        simp [hc, propsGet?_propsSet_self]
      · rw [if_neg hc]
        simp [hc]
    · have hget : propsGet? ((k1, v1) :: tl) k = propsGet? tl k := by
        simp [propsGet?, alistGet?, he]
      rw [hget, ih _ k hnd']
      have hbase : propsGet? (if cond k1 v1 = true then propsSet base k1 v1 else base) k
          = propsGet? base k := by
        by_cases hc : cond k1 v1 = true
        · rw [if_pos hc]
          exact propsGet?_propsSet_ne base k1 k v1 he
        · rw [if_neg hc]
      cases hv : propsGet? tl k with
      | none => simp only [hv, hbase]
      | some v => simp only [hv, hbase]

theorem mergeByIdFeature_props_stable (L : VDict Props) (pidField : String) (f : Feature)
    (h : ∀ idv, propsGet? f.props pidField = some idv → idv.truthy = true →
      alistGet? L idv = none) :
    (mergeByIdFeature L pidField f).props = f.props := by
  simp only [mergeByIdFeature]
  cases hp : propsGet? f.props pidField with
  | none => rfl
  | some idv =>
    by_cases ht : idv.truthy = true
    · simp only [ht, if_true]
      rw [h idv hp ht]
    · simp [ht]

theorem mergeByIdFeature_changed (L : VDict Props) (pidField : String) (f : Feature)
    (k : String)
    (h : propsGet? (mergeByIdFeature L pidField f).props k ≠ propsGet? f.props k) :
    ∃ idv sprops v, propsGet? f.props pidField = some idv ∧ idv.truthy = true
      ∧ alistGet? L idv = some sprops ∧ (k, v) ∈ sprops ∧ v.truthy = true ∧ k ≠ "" := by
  rcases hp : propsGet? f.props pidField with _ | idv
  · simp only [mergeByIdFeature, hp] at h
    exact absurd rfl h
  · simp only [mergeByIdFeature, hp] at h
    by_cases ht : idv.truthy = true
    · rcases hl : alistGet? L idv with _ | sprops
      · simp only [ht, if_true, hl] at h
        exact absurd rfl h
      · simp only [ht, if_true, hl] at h
        obtain ⟨v, hv, hcv⟩ := foldSetIf_changed _ sprops f.props k h
        simp only [Bool.and_eq_true, decide_eq_true_eq] at hcv
        exact ⟨idv, sprops, v, rfl, ht, hl, hv, hcv.2, hcv.1⟩
    · rw [if_neg ht] at h
      exact absurd rfl h

theorem merge_by_id_get (primary secondary : GeoData) (pidField sidField : String)
    (i : Nat) (hi : i < (merge_by_id primary secondary pidField sidField).features.length)
    (hi' : i < primary.features.length) :
    (merge_by_id primary secondary pidField sidField).features.get ⟨i, hi⟩
      = mergeByIdFeature (secondaryLookup sidField secondary.features []) pidField
          (primary.features.get ⟨i, hi'⟩) := by
  simp [merge_by_id, List.get_eq_getElem, List.getElem_map]

/-- Claim C4: in the exact-attribute join (`merge_by_id`), a primary
record's attribute changes only when its key value is found in the
secondary lookup and the copied secondary value is truthy: (1) a primary
record whose (truthy) key value is absent from the secondary lookup passes
through with its attribute mapping unchanged; (2) whenever any attribute of
the output differs from the input, the record's key value was truthy and
present in the lookup and the looked-up secondary mapping carries a truthy
value under a truthy key at that attribute — in particular an empty/falsy
secondary value never overwrites a primary attribute. -/
theorem merge_by_id_frame_C4 (primary secondary : GeoData) (pidField sidField : String) :
    (∀ i (hi : i < (merge_by_id primary secondary pidField sidField).features.length)
       (hi' : i < primary.features.length),
       (∀ idv, propsGet? (primary.features.get ⟨i, hi'⟩).props pidField = some idv →
          idv.truthy = true →
          alistGet? (secondaryLookup sidField secondary.features []) idv = none) →
       ((merge_by_id primary secondary pidField sidField).features.get ⟨i, hi⟩).props
         = (primary.features.get ⟨i, hi'⟩).props)
    ∧ (∀ i (hi : i < (merge_by_id primary secondary pidField sidField).features.length)
       (hi' : i < primary.features.length) (k : String),
       propsGet? ((merge_by_id primary secondary pidField sidField).features.get ⟨i, hi⟩).props k
         ≠ propsGet? (primary.features.get ⟨i, hi'⟩).props k →
       ∃ idv sprops v,
         propsGet? (primary.features.get ⟨i, hi'⟩).props pidField = some idv
         ∧ idv.truthy = true
         ∧ alistGet? (secondaryLookup sidField secondary.features []) idv = some sprops
         ∧ (k, v) ∈ sprops ∧ v.truthy = true ∧ k ≠ "") := by
  constructor
  · intro i hi hi' h
    rw [merge_by_id_get primary secondary pidField sidField i hi hi']
    exact mergeByIdFeature_props_stable _ _ _ h
  · intro i hi hi' k h
    rw [merge_by_id_get primary secondary pidField sidField i hi hi'] at h
    exact mergeByIdFeature_changed _ _ _ _ h

theorem merge_by_id_frame_C4_witness :
    ((merge_by_id exC4Primary exC4Secondary "PIN" "SID").features.get ⟨0, by decide⟩).props
      = (exC4Primary.features.get ⟨0, by decide⟩).props :=
  (merge_by_id_frame_C4 exC4Primary exC4Secondary "PIN" "SID").1 0 (by decide) (by decide)
    (fun _ _ _ => rfl)

theorem mergeTruthyExceptKey_get_ex (ex : String) (base upd : Props) :
    propsGet? (mergeTruthyExceptKey ex base upd) ex = propsGet? base ex := by
  unfold mergeTruthyExceptKey
  apply foldSetIf_get_stable
  intro v _
  simp

theorem copyAllExceptKey_get_ex (ex : String) (base upd : Props) :
    propsGet? (copyAllExceptKey ex base upd) ex = propsGet? base ex := by
  unfold copyAllExceptKey
  apply foldSetIf_get_stable
  intro v _
  simp

theorem mergeScrapedFeature_key (L : VDict Props) (mf : String) (f : Feature) :
    propsGet? (mergeScrapedFeature L mf f).props mf = propsGet? f.props mf := by
  rcases hp : propsGet? f.props mf with _ | mv
  · simp [mergeScrapedFeature, hp]
  · simp only [mergeScrapedFeature, hp]
    by_cases ht : mv.truthy = true
    · rcases hl : alistGet? L mv with _ | item
      · simp [hl, ht, hp]
      · simp only [hl, ht, if_true]
        rw [mergeTruthyExceptKey_get_ex]
        exact hp
    · simp [ht, hp]

theorem merge_scraped_get (parcelData : GeoData) (scraped : List Props) (mergeField : String)
    (i : Nat) (hi : i < (merge_scraped_data parcelData scraped mergeField).features.length)
    (hi' : i < parcelData.features.length) :
    (merge_scraped_data parcelData scraped mergeField).features.get ⟨i, hi⟩
      = mergeScrapedFeature (scrapedLookup mergeField scraped []) mergeField
          (parcelData.features.get ⟨i, hi'⟩) := by
  simp [merge_scraped_data, List.get_eq_getElem, List.getElem_map]

theorem joinParcels_ok (lookup : VDict Props) (pk ak : String) (parcels : List JRec) :
    ∀ out, joinParcels lookup pk ak parcels = .ok out →
    out.length = parcels.length ∧
    (∀ i (hi : i < out.length) (hi' : i < parcels.length),
      propsGet? (out.get ⟨i, hi⟩).props ak = propsGet? (parcels.get ⟨i, hi'⟩).props ak) := by
  induction parcels with
  | nil =>
    intro out h
    simp only [joinParcels, Except.ok.injEq] at h
    subst h
    exact ⟨rfl, fun i hi hi' => absurd hi (by simp)⟩
  | cons r rest ih =>
    intro out h
    rcases hg : strictGet r.props pk with e | key
    · simp [joinParcels, hg] at h
    · simp only [joinParcels, hg] at h
      rcases hrec : joinParcels lookup pk ak rest with e | out'
      · simp [hrec] at h
      · rw [hrec] at h
        simp only [Except.ok.injEq] at h
        subst h
        obtain ⟨ihlen, ihget⟩ := ih out' hrec
        refine ⟨by simp [ihlen], ?_⟩
        intro i hi hi'
        cases i with
        | zero =>
          simp only [List.get]
          rcases hl : alistGet? lookup key with _ | aprops
          · simp [hl]
          · simp only [hl]
            exact copyAllExceptKey_get_ex ak r.props aprops
        | succ n =>
          simp only [List.get]
          exact ihget n (by simpa using hi) (by simpa using hi')

/-- Claim C10: the secondary join-key field is never copied into a primary
record: (1) in the scraped-data merge, every output record's value at the
merge field equals the input record's value there; (2) in the
cross-encoding join, every output record's value at the address key equals
the input record's value there; (3) the copy loop of the cross-encoding
join does copy every other field of the matched secondary mapping (for a
duplicate-free secondary mapping, any key other than the excluded one that
the secondary mapping carries ends with the secondary's value). -/
theorem join_key_not_copied_C10 :
    (∀ (parcelData : GeoData) (scraped : List Props) (mergeField : String)
       (i : Nat) (hi : i < (merge_scraped_data parcelData scraped mergeField).features.length)
       (hi' : i < parcelData.features.length),
       propsGet?
         ((merge_scraped_data parcelData scraped mergeField).features.get ⟨i, hi⟩).props
         mergeField
         = propsGet? (parcelData.features.get ⟨i, hi'⟩).props mergeField)
    ∧ (∀ (parcels addrs : List JRec) (pk ak : String) (out : List JRec),
       join_address_to_parcel parcels addrs pk ak = .ok out →
       ∀ i (hi : i < out.length) (hi' : i < parcels.length),
         propsGet? (out.get ⟨i, hi⟩).props ak = propsGet? (parcels.get ⟨i, hi'⟩).props ak)
    ∧ (∀ (ex : String) (base upd : Props) (k : String) (v : Value),
       (propsKeys upd).Nodup → k ≠ ex → propsGet? upd k = some v →
       propsGet? (copyAllExceptKey ex base upd) k = some v) := by
  refine ⟨?_, ?_, ?_⟩
  · intro parcelData scraped mergeField i hi hi'
    rw [merge_scraped_get parcelData scraped mergeField i hi hi']
    exact mergeScrapedFeature_key _ _ _
  · intro parcels addrs pk ak out h i hi hi'
    rcases hb : buildAddressLookup ak addrs [] with e | L
    · simp [join_address_to_parcel, hb] at h
    · simp only [join_address_to_parcel, hb] at h
      exact (joinParcels_ok L pk ak parcels out h).2 i hi hi'
  · intro ex base upd k v hnd hk hv
    unfold copyAllExceptKey
    rw [foldSetIf_get_nodup _ upd base k hnd, hv]
    simp [hk]

theorem join_key_not_copied_C10_witness :
    propsGet? (exC10Out.get ⟨0, by decide⟩).props "A"
      = propsGet? (exC10Parcels.get ⟨0, by decide⟩).props "A" :=
  join_key_not_copied_C10.2.1 exC10Parcels exC10Addrs "P" "A" exC10Out rfl 0
    (by decide) (by decide)

theorem modifyAt_map_geometry (g : Feature → Feature)
    (hg : ∀ x, (g x).geometry = x.geometry) (l : List Feature) :
    ∀ i, (modifyAt l i g).map Feature.geometry = l.map Feature.geometry := by
  induction l with
  | nil => intro i; rfl
  | cons x rest ih =>
    intro i
    cases i with
    | zero => simp [modifyAt, hg]
    | succ n => simp [modifyAt, ih]

theorem applyAddresses_fst_map_geometry (entries : List (Nat × List Feature)) :
    ∀ (feats : List Feature) (t : Nat),
    (applyAddresses entries feats t).1.map Feature.geometry = feats.map Feature.geometry := by
  induction entries with
  | nil => intro feats t; rfl
  | cons e rest ih =>
    intro feats t
    obtain ⟨i, addrList⟩ := e
    simp only [applyAddresses]
    rw [ih]
    apply modifyAt_map_geometry
    intro x
    rfl

theorem applyAddresses_snd (entries : List (Nat × List Feature)) :
    ∀ feats t, (applyAddresses entries feats t).2 = t + sumLens entries := by
  induction entries with
  | nil => intro feats t; simp [applyAddresses, sumLens]
  | cons e rest ih =>
    intro feats t
    obtain ⟨i, addrList⟩ := e
    simp only [applyAddresses]
    rw [ih]
    simp [sumLens]
    omega

theorem buildIndexAux_feats (feats : List Feature) :
    ∀ acc, (buildIndexAux feats acc).feats
      = acc.feats ++ feats.filter (fun f => f.geometry.isSome) := by
  induction feats with
  | nil => intro acc; simp [buildIndexAux]
  | cons f rest ih =>
    intro acc
    rcases hg : f.geometry with _ | g
    · simp only [buildIndexAux, hg]
      rw [ih]
      simp [List.filter_cons, hg]
    · simp only [buildIndexAux, hg]
      rw [ih]
      simp [List.filter_cons, hg]

theorem buildIndexAux_geoms (feats : List Feature) :
    ∀ acc, (buildIndexAux feats acc).geoms
      = acc.geoms ++ feats.filterMap Feature.geometry := by
  induction feats with
  | nil => intro acc; simp [buildIndexAux]
  | cons f rest ih =>
    intro acc
    rcases hg : f.geometry with _ | g
    · simp only [buildIndexAux, hg]
      rw [ih]
      simp [List.filterMap_cons, hg]
    · simp only [buildIndexAux, hg]
      rw [ih]
      simp [List.filterMap_cons, hg]

theorem reassemble_map_geometry (feats : List Feature) :
    ∀ ups, ups.map Feature.geometry
        = (feats.filter (fun f => f.geometry.isSome)).map Feature.geometry →
    (reassemble feats ups).map Feature.geometry = feats.map Feature.geometry := by
  induction feats with
  | nil => intro ups _; rfl
  | cons f rest ih =>
    intro ups h
    rcases hg : f.geometry with _ | g
    · simp only [List.filter_cons, hg, Option.isSome_none, Bool.false_eq_true,
        if_false] at h
      simp only [reassemble, hg, List.map_cons]
      rw [ih ups h]
    · simp only [List.filter_cons, hg, Option.isSome_some, if_true, List.map_cons] at h
      cases ups with
      | nil => simp at h
      | cons u ups' =>
        rw [List.map_cons] at h
        injection h with h1 h2
        simp only [reassemble, hg, List.headD, List.tail, List.map_cons]
        rw [ih ups' h2, h1]

theorem spatial_join_ok_elim (ops : GeomOps) (p a : GeoData) (r : SpatialResult)
    (h : spatial_join ops p a = .ok r) :
    ∃ assigns unmatched,
      matchAddresses ops (buildIndex p.features) a.features [] [] = .ok (assigns, unmatched)
      ∧ r.collection.features
          = reassemble p.features (applyAddresses assigns (buildIndex p.features).feats 0).1
      ∧ r.totalMatched = (applyAddresses assigns (buildIndex p.features).feats 0).2
      ∧ r.unmatchedCount = unmatched.length
      ∧ r.parcelsWithAddr = assigns.length := by
  rcases hm : matchAddresses ops (buildIndex p.features) a.features [] [] with e | pr
  · simp [spatial_join, hm] at h
  · obtain ⟨assigns, unmatched⟩ := pr
    simp only [spatial_join, hm, Except.ok.injEq] at h
    subst h
    exact ⟨assigns, unmatched, rfl, rfl, rfl, rfl, rfl⟩

theorem matchAddresses_ok_all_some (ops : GeomOps) (idx : SpatialIndex)
    (addrs : List Feature) :
    ∀ acc unm, (∀ f ∈ addrs, f.geometry.isSome = true) →
    ∃ pr, matchAddresses ops idx addrs acc unm = .ok pr := by
  induction addrs with
  | nil => intro acc unm _; exact ⟨(acc, unm), rfl⟩
  | cons a rest ih =>
    intro acc unm h
    have ha := h a (List.mem_cons_self _ _)
    rcases hg : a.geometry with _ | ag
    · rw [hg] at ha; simp at ha
    · simp only [matchAddresses, hg]
      rcases hfi : findParcelIdx ops idx.wktIdx ag (streeQuery ops idx.geoms ag) with _ | i
      · simp only [hfi]
        exact ih _ _ (fun f hf' => h f (List.mem_cons_of_mem _ hf'))
      · simp only [hfi]
        exact ih _ _ (fun f hf' => h f (List.mem_cons_of_mem _ hf'))

theorem matchAddresses_error_of_none (ops : GeomOps) (idx : SpatialIndex)
    (addrs : List Feature) :
    ∀ acc unm, (∃ f ∈ addrs, f.geometry = none) →
    ∃ e, matchAddresses ops idx addrs acc unm = .error e := by
  induction addrs with
  | nil =>
    intro acc unm h
    obtain ⟨f, hf, _⟩ := h
    exact absurd hf (List.not_mem_nil f)
  | cons a rest ih =>
    intro acc unm h
    rcases hg : a.geometry with _ | ag
    · exact ⟨"shape: address geometry missing or null", by simp [matchAddresses, hg]⟩
    · obtain ⟨f, hf, hfn⟩ := h
      rcases List.mem_cons.mp hf with he | hm
      · subst he; rw [hfn] at hg; cases hg
      · simp only [matchAddresses, hg]
        rcases hfi : findParcelIdx ops idx.wktIdx ag (streeQuery ops idx.geoms ag) with _ | i
        · simp only [hfi]
          exact ih _ _ ⟨f, hm, hfn⟩
        · simp only [hfi]
          exact ih _ _ ⟨f, hm, hfn⟩

theorem sumLens_ddAppend (d : List (Nat × List Feature)) (k : Nat) (a : Feature) :
    sumLens (ddAppend d k a) = sumLens d + 1 := by
  induction d with
  | nil => simp [ddAppend, sumLens]
  | cons hd tl ih =>
    obtain ⟨k', l⟩ := hd
    by_cases h : k' = k
    · simp [ddAppend, h, sumLens]
      omega
    · simp [ddAppend, h, sumLens] at *
      omega

theorem matchAddresses_count (ops : GeomOps) (idx : SpatialIndex)
    (addrs : List Feature) :
    ∀ acc unm assigns unmatched,
    matchAddresses ops idx addrs acc unm = .ok (assigns, unmatched) →
    sumLens assigns + unmatched.length = sumLens acc + unm.length + addrs.length := by
  induction addrs with
  | nil =>
    intro acc unm assigns unmatched h
    simp only [matchAddresses, Except.ok.injEq, Prod.mk.injEq] at h
    obtain ⟨h1, h2⟩ := h
    subst h1
    subst h2
    simp
  | cons a rest ih =>
    intro acc unm assigns unmatched h
    rcases hg : a.geometry with _ | ag
    · simp [matchAddresses, hg] at h
    · rcases hfi : findParcelIdx ops idx.wktIdx ag (streeQuery ops idx.geoms ag) with _ | i
      · simp only [matchAddresses, hg, hfi] at h
        have := ih _ _ _ _ h
        simp only [List.length_append, List.length_cons, List.length_nil] at this ⊢
        omega
      · simp only [matchAddresses, hg, hfi] at h
        have := ih _ _ _ _ h
        rw [sumLens_ddAppend] at this
        simp only [List.length_cons] at this ⊢
        omega

/-- Claim C9: each of the four join operations preserves the primary record
sequence: the geometry sequence of the output equals the geometry sequence
of the primary input (hence record count, record order, and each record's
geometry are preserved).  For the spatial join this holds whenever the join
returns a result. -/
theorem joins_preserve_primary_C9 :
    (∀ (primary secondary : GeoData) (pidField sidField : String),
       (merge_by_id primary secondary pidField sidField).features.map Feature.geometry
         = primary.features.map Feature.geometry)
    ∧ (∀ (extract : Value → List (String × String)) (parcelData addressData : GeoData),
       (merge_by_pidn extract parcelData addressData).features.map Feature.geometry
         = parcelData.features.map Feature.geometry)
    ∧ (∀ (parcelData : GeoData) (scraped : List Props) (mergeField : String),
       (merge_scraped_data parcelData scraped mergeField).features.map Feature.geometry
         = parcelData.features.map Feature.geometry)
    ∧ (∀ (ops : GeomOps) (p a : GeoData) (r : SpatialResult),
       spatial_join ops p a = .ok r →
       r.collection.features.map Feature.geometry = p.features.map Feature.geometry) := by
  refine ⟨?_, ?_, ?_, ?_⟩
  · intro p s pidField sidField
    simp only [merge_by_id, List.map_map]
    exact List.map_congr_left (fun f _ => rfl)
  · intro extract p a
    simp only [merge_by_pidn, List.map_map]
    exact List.map_congr_left (fun f _ => rfl)
  · intro p sc mf
    simp only [merge_scraped_data, List.map_map]
    exact List.map_congr_left (fun f _ => rfl)
  · intro ops p a r h
    obtain ⟨assigns, unmatched, _, hcoll, _, _, _⟩ := spatial_join_ok_elim ops p a r h
    rw [hcoll]
    apply reassemble_map_geometry
    rw [applyAddresses_fst_map_geometry]
    simp [buildIndex, buildIndexAux_feats]

theorem joins_preserve_primary_C9_witness :
    exSpatialOutcome.collection.features.map Feature.geometry
      = exParcels.features.map Feature.geometry :=
  joins_preserve_primary_C9.2.2.2 rectGeomOps exParcels exAddrs exSpatialOutcome rfl

/-- Claim C3 (amended): a primary record with null/missing geometry is
skipped from indexing without error (the index holds exactly the
geometry-bearing records), and the join succeeds whenever every secondary
record carries a geometry; but a secondary record with null/missing
geometry makes the join fail with an error — it is not skipped. -/
theorem spatial_null_geometry_C3 :
    (∀ (ops : GeomOps) (p a : GeoData),
       (∀ f ∈ a.features, f.geometry.isSome = true) →
       ∃ r, spatial_join ops p a = .ok r)
    ∧ (∀ (ops : GeomOps) (p a : GeoData),
       (∃ f ∈ a.features, f.geometry = none) →
       ∃ e, spatial_join ops p a = .error e)
    ∧ (∀ feats : List Feature,
       (buildIndex feats).feats = feats.filter (fun f => f.geometry.isSome)
       ∧ (buildIndex feats).geoms = feats.filterMap Feature.geometry) := by
  refine ⟨?_, ?_, ?_⟩
  · intro ops p a h
    obtain ⟨⟨assigns, unmatched⟩, hm⟩ :=
      matchAddresses_ok_all_some ops (buildIndex p.features) a.features [] [] h
    rcases hr : spatial_join ops p a with e | r
    · simp [spatial_join, hm] at hr
    · exact ⟨r, rfl⟩
  · intro ops p a h
    obtain ⟨e, hm⟩ :=
      matchAddresses_error_of_none ops (buildIndex p.features) a.features [] [] h
    rcases hr : spatial_join ops p a with e' | r
    · exact ⟨e', rfl⟩
    · simp [spatial_join, hm] at hr
  · intro feats
    constructor
    · simp [buildIndex, buildIndexAux_feats]
    · simp [buildIndex, buildIndexAux_geoms]

/-- Counterexample to claim C3 as stated: one secondary record with
null/missing geometry makes the spatial join fail instead of being skipped
(first conjunct); a primary record with null/missing geometry is indeed
skipped without error (second conjunct). -/
theorem spatial_null_geometry_C3_counterexample :
    spatial_join rectGeomOps exParcels ⟨none, [exNullGeomAddr]⟩
      = .error "shape: address geometry missing or null"
    ∧ (spatial_join rectGeomOps ⟨none, [exNullGeomParcel, exParcelA]⟩ exAddrs).isOk = true :=
  ⟨rfl, rfl⟩

theorem spatial_null_geometry_C3_witness :
    ∃ r, spatial_join rectGeomOps exParcels exAddrs = .ok r :=
  spatial_null_geometry_C3.1 rectGeomOps exParcels exAddrs (by decide)

/-- Claim C5: for every spatial-join run that returns (in particular, every
secondary record carries a geometry), the matched secondary count equals
the total secondary count minus the unmatched count, exactly. -/
theorem spatial_counts_C5 (ops : GeomOps) (p a : GeoData) (r : SpatialResult)
    (h : spatial_join ops p a = .ok r) :
    r.totalMatched + r.unmatchedCount = a.features.length
    ∧ r.totalMatched = a.features.length - r.unmatchedCount := by
  obtain ⟨assigns, unmatched, hm, _, htot, hun, _⟩ := spatial_join_ok_elim ops p a r h
  have hcount :=
    matchAddresses_count ops (buildIndex p.features) a.features [] [] assigns unmatched hm
  rw [htot, hun, applyAddresses_snd]
  have h0 : sumLens ([] : List (Nat × List Feature)) = 0 := rfl
  rw [h0] at hcount
  simp only [List.length_nil] at hcount
  omega

theorem spatial_counts_C5_witness :
    exSpatialOutcome.totalMatched + exSpatialOutcome.unmatchedCount = exAddrs.features.length
    ∧ exSpatialOutcome.totalMatched
        = exAddrs.features.length - exSpatialOutcome.unmatchedCount :=
  spatial_counts_C5 rectGeomOps exParcels exAddrs exSpatialOutcome rfl

/-- Claim C1 (amended): for each secondary record the candidate scan
selects, in a single pass over the candidates, the first candidate that is
present in the WKT dict and contains **or** intersects the secondary
geometry; containment is not preferred over intersection across
candidates. -/
theorem spatial_selection_C1 (ops : GeomOps) (d : List (Geom × Nat)) (ag : Geom)
    (cands : List Geom) :
    findParcelIdx ops d ag cands = firstHitIdx ops d ag cands := by
  induction cands with
  | nil => rfl
  | cons c rest ih =>
    rcases hd : alistGet? d c with _ | i
    · have hpred : ((alistGet? d c).isSome
          && (ops.containsG c ag || ops.intersectsG c ag)) = false := by
        simp [hd]
      simp only [findParcelIdx, hd]
      rw [ih]
      unfold firstHitIdx
      rw [List.find?_cons_of_neg _ (by simp [hpred])]
    · by_cases hp : (ops.containsG c ag || ops.intersectsG c ag) = true
      · simp only [findParcelIdx, hd, hp, if_true]
        unfold firstHitIdx
        rw [List.find?_cons_of_pos _ (by simp [hd, hp])]
        simp [hd]
      · have hpred : ((alistGet? d c).isSome
            && (ops.containsG c ag || ops.intersectsG c ag)) = false := by
          simp [hd, hp]
        simp only [findParcelIdx, hd]
        rw [if_neg (by simp [hp])]
        rw [ih]
        unfold firstHitIdx
        rw [List.find?_cons_of_neg _ (by simp [hpred])]

/-- Counterexample to claim C1 as stated: for the boundary address point the
candidates are the two parcel boxes in index order; the first merely
intersects (does not contain), the second contains.  The code selects the
first (index 0), a containment-first rule would select index 1, and
end-to-end the address attributes land on parcel 0. -/
theorem spatial_selection_C1_counterexample :
    findParcelIdx rectGeomOps (buildIndex exParcels.features).wktIdx (Geom.point [10, 5])
        (streeQuery rectGeomOps (buildIndex exParcels.features).geoms (Geom.point [10, 5]))
      = some 0
    ∧ claimFirstContainElseIntersect rectGeomOps (buildIndex exParcels.features).wktIdx
        (Geom.point [10, 5])
        (streeQuery rectGeomOps (buildIndex exParcels.features).geoms (Geom.point [10, 5]))
      = some 1
    ∧ rectContains (boxGeom 0 0 10 10) (Geom.point [10, 5]) = false
    ∧ rectIntersects (boxGeom 0 0 10 10) (Geom.point [10, 5]) = true
    ∧ rectContains (boxGeom 5 0 15 10) (Geom.point [10, 5]) = true
    ∧ (spatial_join rectGeomOps exParcels exAddrs).map
        (fun r => r.collection.features.map (fun f => propsGet? f.props "street"))
      = .ok [some (.vStr "12 Elm St"), none] :=
  ⟨rfl, rfl, rfl, rfl, rfl, rfl⟩

theorem detectFromGeom_of_firstPos (g : Geom) (c0 : List Rat)
    (h : geomFirstPos g = some c0) : detectFromGeom g = detectFromCoords c0 := by
  cases g with
  | point c => simp [geomFirstPos] at h
  | lineString ps => simp [geomFirstPos] at h
  | polygon rings =>
    rcases rings with _ | ⟨r0, rrest⟩
    · simp [geomFirstPos] at h
    · rcases r0 with _ | ⟨c, crest⟩
      · simp [geomFirstPos] at h
      · simp only [geomFirstPos, Option.some.injEq] at h
        subst h
        rfl
  | multiPolygon pp =>
    rcases pp with _ | ⟨p0, prest⟩
    · simp [geomFirstPos] at h
    · rcases p0 with _ | ⟨r0, rrest⟩
      · simp [geomFirstPos] at h
      · rcases r0 with _ | ⟨c, crest⟩
        · simp [geomFirstPos] at h
        · simp only [geomFirstPos, Option.some.injEq] at h
          subst h
          rfl

/-- Claim C2 (amended): with no explicit CRS metadata, detection reads the
first coordinate pair (x, y) of the first valid geometry (only Polygon and
MultiPolygon geometries yield one); if x or y exceeds +1,000,000 the result
is the state-plane system — the threshold is sign-sensitive, not a
magnitude test — and if the pair lies within [-180,180]×[-90,90] the
result is geographic WGS84. -/
theorem detect_heuristic_C2 (d : GeoData) (x y : Rat)
    (hcrs : d.crsName = none) (hp : firstPairOf d = some (x, y)) :
    ((1000000 < x ∨ 1000000 < y) → detect_coordinate_system d = .ok "EPSG:3739")
    ∧ ((-180 ≤ x ∧ x ≤ 180 ∧ -90 ≤ y ∧ y ≤ 90) →
        detect_coordinate_system d = .ok "EPSG:4326") := by
  rcases hf : firstValidFeature d.features with _ | f
  · simp [firstPairOf, hf] at hp
  · rcases hg : f.geometry with _ | g
    · simp [firstPairOf, hf, hg] at hp
    · rcases hgp : geomFirstPos g with _ | c0
      · simp [firstPairOf, hf, hg, hgp] at hp
      · rcases c0 with _ | ⟨x0, c1⟩
        · simp [firstPairOf, hf, hg, hgp] at hp
        · rcases c1 with _ | ⟨y0, crest⟩
          · simp [firstPairOf, hf, hg, hgp] at hp
          · simp only [firstPairOf, hf, hg, hgp, Option.some.injEq, Prod.mk.injEq] at hp
            obtain ⟨hx0, hy0⟩ := hp
            rw [hx0, hy0] at hgp
            have hne : d.features.isEmpty = false := by
              cases hfe : d.features with
              | nil => rw [hfe] at hf; simp [firstValidFeature] at hf
              | cons hd tl => simp
            have hdet : detect_coordinate_system d = detectFromCoords (x :: y :: crest) := by
              unfold detect_coordinate_system
              rw [hcrs]
              simp only [hne, Bool.false_eq_true, if_false, matchCrsName, hf, hg]
              exact detectFromGeom_of_firstPos g _ hgp
            constructor
            · intro h1
              have hnin : ¬(-180 ≤ x ∧ x ≤ 180 ∧ -90 ≤ y ∧ y ≤ 90) := by
                rintro ⟨_, hx, _, hy⟩
                rcases h1 with h1 | h1 <;> linarith
              rw [hdet]
              simp only [detectFromCoords]
              rw [if_neg hnin, if_pos h1]
            · intro h2
              rw [hdet]
              simp only [detectFromCoords]
              rw [if_pos h2]

/-- Counterexample to claim C2 as stated: the first coordinate pair
(-2000000, 0) has an ordinate of magnitude above 1,000,000, yet detection
returns WGS84, because the source tests `x > 1000000 or y > 1000000`
without taking magnitudes. -/
theorem detect_heuristic_C2_counterexample :
    firstPairOf exNegStatePlane = some (-2000000, 0)
    ∧ (1000000 : Rat) < |(-2000000 : Rat)|
    ∧ detect_coordinate_system exNegStatePlane = .ok "EPSG:4326"
    ∧ "EPSG:4326" ≠ "EPSG:3739" :=
  ⟨rfl, by norm_num, rfl, by decide⟩

theorem detect_heuristic_C2_witness :
    detect_coordinate_system exPosStatePlane = .ok "EPSG:3739" :=
  (detect_heuristic_C2 exPosStatePlane 2000000 500000 rfl rfl).1 (Or.inl (by norm_num))

theorem buildAddressLookup_missing (ak : String) (addrs : List JRec) :
    ∀ acc, (∃ r ∈ addrs, propsGet? r.props ak = none) →
    buildAddressLookup ak addrs acc = .error ("KeyError: " ++ ak) := by
  induction addrs with
  | nil =>
    intro acc h
    obtain ⟨r, hr, _⟩ := h
    exact absurd hr (List.not_mem_nil r)
  | cons a rest ih =>
    intro acc h
    rcases hg : propsGet? a.props ak with _ | v
    · simp [buildAddressLookup, strictGet, hg]
    · obtain ⟨r, hr, hrn⟩ := h
      rcases List.mem_cons.mp hr with he | hm
      · subst he; rw [hrn] at hg; cases hg
      · simp only [buildAddressLookup, strictGet, hg]
        exact ih _ ⟨r, hm, hrn⟩

theorem buildAddressLookup_total (ak : String) (addrs : List JRec) :
    ∀ acc, (∀ r ∈ addrs, (propsGet? r.props ak).isSome = true) →
    ∃ L, buildAddressLookup ak addrs acc = .ok L := by
  induction addrs with
  | nil => intro acc _; exact ⟨acc, rfl⟩
  | cons a rest ih =>
    intro acc h
    have ha := h a (List.mem_cons_self _ _)
    rcases hg : propsGet? a.props ak with _ | v
    · rw [hg] at ha; simp at ha
    · simp only [buildAddressLookup, strictGet, hg]
      exact ih _ (fun r hr => h r (List.mem_cons_of_mem _ hr))

theorem joinParcels_missing (lookup : VDict Props) (pk ak : String) (parcels : List JRec) :
    (∃ r ∈ parcels, propsGet? r.props pk = none) →
    joinParcels lookup pk ak parcels = .error ("KeyError: " ++ pk) := by
  induction parcels with
  | nil =>
    intro h
    obtain ⟨r, hr, _⟩ := h
    exact absurd hr (List.not_mem_nil r)
  | cons r rest ih =>
    intro h
    rcases hg : propsGet? r.props pk with _ | key
    · simp [joinParcels, strictGet, hg]
    · obtain ⟨r', hr', hrn⟩ := h
      rcases List.mem_cons.mp hr' with he | hm
      · subst he; rw [hrn] at hg; cases hg
      · simp only [joinParcels, strictGet, hg]
        rw [ih ⟨r', hm, hrn⟩]

/-- Claim C8: the cross-encoding join uses strict subscript lookups: a
record whose configured join key is absent from its attribute mapping makes
the whole operation fail with a `KeyError` naming that key — there is no
silent skip.  This holds for the secondary (address) pass, and for the
primary (parcel) pass once every address record carries its key. -/
theorem strict_lookup_C8 (parcels addrs : List JRec) (pk ak : String) :
    ((∃ r ∈ addrs, propsGet? r.props ak = none) →
      join_address_to_parcel parcels addrs pk ak = .error ("KeyError: " ++ ak))
    ∧ ((∀ r ∈ addrs, (propsGet? r.props ak).isSome = true) →
      (∃ r ∈ parcels, propsGet? r.props pk = none) →
      join_address_to_parcel parcels addrs pk ak = .error ("KeyError: " ++ pk)) := by
  constructor
  · intro h
    unfold join_address_to_parcel
    rw [buildAddressLookup_missing ak addrs [] h]
  · intro hall h
    obtain ⟨L, hL⟩ := buildAddressLookup_total ak addrs [] hall
    unfold join_address_to_parcel
    rw [hL]
    exact joinParcels_missing L pk ak parcels h

theorem strict_lookup_C8_witness :
    join_address_to_parcel [] [exC8Addr] "P" "A" = .error ("KeyError: " ++ "A") :=
  (strict_lookup_C8 [] [exC8Addr] "P" "A").1 ⟨exC8Addr, by simp, rfl⟩

theorem digitVal_digitChar (d : Nat) (h : d < 10) : digitVal (digitChar d) = d :=
  (by decide : ∀ e, e < 10 → digitVal (digitChar e) = e) d h

theorem natDigitsGo_append (fuel : Nat) :
    ∀ n acc, natDigitsGo fuel n acc = natDigitsGo fuel n [] ++ acc := by
  induction fuel with
  | zero => intro n acc; rfl
  | succ fuel ih =>
    intro n acc
    by_cases h : n < 10
    · simp [natDigitsGo, h]
    · simp only [natDigitsGo]
      rw [if_neg h, if_neg h]
      rw [ih (n / 10) (digitChar (n % 10) :: acc), ih (n / 10) [digitChar (n % 10)]]
      simp

theorem valFold_natDigitsGo (fuel : Nat) :
    ∀ n, n ≤ fuel → ∀ a,
    List.foldl (fun a c => 10 * a + digitVal c) a (natDigitsGo fuel n [])
      = a * 10 ^ (natDigitsGo fuel n []).length + n := by
  induction fuel with
  | zero =>
    intro n hn a
    have h0 : n = 0 := Nat.le_zero.mp hn
    subst h0
    have hd : digitVal (digitChar (0 % 10)) = 0 := rfl
    simp [natDigitsGo, hd]
    ring
  | succ fuel ih =>
    intro n hn a
    by_cases h : n < 10
    · simp only [natDigitsGo]
      rw [if_pos h]
      simp only [List.foldl_cons, List.foldl_nil, List.length_cons, List.length_nil,
        Nat.zero_add, pow_one]
      rw [digitVal_digitChar n h]
      ring
    · simp only [natDigitsGo]
      rw [if_neg h]
      rw [natDigitsGo_append fuel (n / 10) [digitChar (n % 10)]]
      rw [List.foldl_append]
      have hle : n / 10 ≤ fuel := by
        have hlt := Nat.div_lt_self (show 0 < n by omega) (show 1 < 10 by omega)
        omega
      rw [ih (n / 10) hle a]
      simp only [List.foldl_cons, List.foldl_nil, List.length_append, List.length_cons,
        List.length_nil, Nat.zero_add]
      rw [digitVal_digitChar (n % 10) (Nat.mod_lt n (by omega))]
      generalize (natDigitsGo fuel (n / 10) []).length = L
      have hmod : 10 * (n / 10) + n % 10 = n := Nat.div_add_mod n 10
      rw [pow_succ]
      have h1 : 10 * (a * 10 ^ L + n / 10) + n % 10
          = a * (10 ^ L * 10) + (10 * (n / 10) + n % 10) := by ring
      rw [h1, hmod]

theorem valDigits_natStr (n : Nat) : valDigits (natStr n).data = n := by
  have h := valFold_natDigitsGo n n (Nat.le_refl n) 0
  simpa [valDigits, natStr] using h

theorem valDigits_replicate_zero (k : Nat) (l : List Char) :
    valDigits (List.replicate k '0' ++ l) = valDigits l := by
  induction k with
  | zero => simp
  | succ k ih =>
    rw [List.replicate_succ, List.cons_append]
    simp only [valDigits, List.foldl_cons]
    have h0 : (10 * 0 + digitVal '0') = 0 := rfl
    rw [h0]
    exact ih

theorem valDigits_zfill (w n : Nat) : valDigits (zfill w (natStr n)).data = n := by
  unfold zfill
  by_cases h : (natStr n).length < w
  · rw [if_pos h, strDataAppend]
    have hz : (String.mk (List.replicate (w - (natStr n).length) '0')).data
        = List.replicate (w - (natStr n).length) '0' := rfl
    rw [hz, valDigits_replicate_zero, valDigits_natStr]
  · rw [if_neg h]
    exact valDigits_natStr n

theorem seqOfUid_mkUid (c : String) (n : Nat) : seqOfUid c (mkUid c n) = n := by
  unfold seqOfUid mkUid
  simp only [strDataAppend]
  rw [List.drop_left]
  exact valDigits_zfill 6 n

theorem standardizeFeature_uid (m : Mappings) (l : LinksCfg) (c : String) (i : Nat)
    (f : Feature) (sf : SFeature) (h : standardizeFeature m l c i f = .ok sf) :
    sf.props.global_parcel_uid = mkUid c i := by
  rcases hm : extractMailingAddress f.props m with e | mail
  · simp [standardizeFeature, hm] at h
  · simp only [standardizeFeature, hm, Except.ok.injEq] at h
    subst h
    rfl

theorem standardizeLoop_ok (m : Mappings) (l : LinksCfg) (c : String)
    (feats : List Feature) :
    ∀ i out, standardizeLoop m l c i feats = .ok out →
    out.length = feats.length ∧
    ∀ k (hk : k < out.length),
      (out.get ⟨k, hk⟩).props.global_parcel_uid = mkUid c (i + k) := by
  induction feats with
  | nil =>
    intro i out h
    simp only [standardizeLoop, Except.ok.injEq] at h
    subst h
    exact ⟨rfl, fun k hk => absurd hk (by simp)⟩
  | cons f rest ih =>
    intro i out h
    rcases hf : standardizeFeature m l c i f with e | sf
    · simp [standardizeLoop, hf] at h
    · rcases hr : standardizeLoop m l c (i + 1) rest with e | out'
      · simp [standardizeLoop, hf, hr] at h
      · simp only [standardizeLoop, hf, hr, Except.ok.injEq] at h
        subst h
        obtain ⟨hlen, hget⟩ := ih (i + 1) out' hr
        refine ⟨by simp [hlen], ?_⟩
        intro k hk
        cases k with
        | zero =>
          simp only [List.get]
          rw [standardizeFeature_uid m l c i f sf hf]
          simp
        | succ kk =>
          simp only [List.get]
          rw [hget kk (by simpa using hk)]
          congr 1
          omega

/-- Claim C6: every successful standardization run assigns record `i`
(0-based output position) the identifier
`{lowercased source}_{zero-padded sequence}` with 1-based sequence `i + 1`;
the sequence numbers read back from the identifiers are strictly increasing
in output order, and the identifiers are pairwise distinct. -/
theorem standardize_uids_C6 (reproject : String → String → Geom → Geom)
    (mappings : Mappings) (links : LinksCfg) (countyData : GeoData)
    (countyName : String) (out : SGeoData)
    (h : standardize_ownership reproject mappings links countyData countyName = .ok out) :
    (∀ i (hi : i < out.features.length),
       (out.features.get ⟨i, hi⟩).props.global_parcel_uid = mkUid countyName (i + 1)
       ∧ seqOfUid countyName ((out.features.get ⟨i, hi⟩).props.global_parcel_uid) = i + 1)
    ∧ (∀ i j (hi : i < out.features.length) (hj : j < out.features.length),
       i < j →
       seqOfUid countyName ((out.features.get ⟨i, hi⟩).props.global_parcel_uid)
         < seqOfUid countyName ((out.features.get ⟨j, hj⟩).props.global_parcel_uid))
    ∧ (∀ i j (hi : i < out.features.length) (hj : j < out.features.length),
       i ≠ j →
       (out.features.get ⟨i, hi⟩).props.global_parcel_uid
         ≠ (out.features.get ⟨j, hj⟩).props.global_parcel_uid) := by
  rcases hd : detect_coordinate_system countyData with e | detected
  · simp [standardize_ownership, hd] at h
  · simp only [standardize_ownership, hd] at h
    split at h
    next e heq => simp at h
    next feats heq =>
      simp only [Except.ok.injEq] at h
      subst h
      obtain ⟨hlen, hget⟩ := standardizeLoop_ok mappings links countyName _ 1 feats heq
      have huid : ∀ i (hi : i < feats.length),
          (feats.get ⟨i, hi⟩).props.global_parcel_uid = mkUid countyName (i + 1) :=
        fun i hi => (hget i hi).trans (by rw [Nat.add_comm])
      refine ⟨fun i hi => ⟨huid i hi, ?_⟩, fun i j hi hj hij => ?_, fun i j hi hj hij => ?_⟩
      · rw [huid i hi, seqOfUid_mkUid]
      · rw [huid i hi, huid j hj, seqOfUid_mkUid, seqOfUid_mkUid]
        omega
      · intro he
        have hseq := congrArg (seqOfUid countyName) he
        rw [huid i hi, huid j hj, seqOfUid_mkUid, seqOfUid_mkUid] at hseq
        omega

theorem standardize_uids_C6_witness :
    ((exStdOut.features.get ⟨0, by decide⟩).props.global_parcel_uid = mkUid "Teton" 1
      ∧ seqOfUid "Teton" ((exStdOut.features.get ⟨0, by decide⟩).props.global_parcel_uid) = 1)
    ∧ (exStdOut.features.get ⟨0, by decide⟩).props.global_parcel_uid
        ≠ (exStdOut.features.get ⟨1, by decide⟩).props.global_parcel_uid := by
  have hok : standardize_ownership idReproject [] [] exStdData "Teton" = .ok exStdOut := by
    rfl
  constructor
  · exact (standardize_uids_C6 idReproject [] [] exStdData "Teton" exStdOut hok).1 0 (by decide)
  · exact (standardize_uids_C6 idReproject [] [] exStdData "Teton" exStdOut hok).2.2 0 1
      (by decide) (by decide) (by decide)

theorem pyStripWs_eq_rstrip_of_comma (s : String) (h : s.data.head? = some ',') :
    pyStripWs s = pyRStripWs s := by
  unfold pyStripWs pyRStripWs pyStripChars pyRStripChars
  congr 1
  cases hd : s.data with
  | nil => rw [hd] at h; cases h
  | cons c0 tl =>
    rw [hd] at h
    simp only [List.head?_cons, Option.some.injEq] at h
    subst h
    rw [List.dropWhile_cons]
    simp [wsChars]

theorem mailingBlock_head (x y z : String) :
    (", " ++ x ++ ", " ++ y ++ " " ++ z).data.head? = some ',' := by
  simp only [strDataAppend]
  rfl

theorem pyStripWs_block (x y z : String) :
    pyStripWs (", " ++ x ++ ", " ++ y ++ " " ++ z)
      = pyRStripWs (", " ++ x ++ ", " ++ y ++ " " ++ z) :=
  pyStripWs_eq_rstrip_of_comma _ (mailingBlock_head x y z)

/-- Claim C7 (amended): the mailing-address composition agrees everywhere
with the amended rule `specMailingAddress`: with more than one candidate the
separator block is appended only when city/state/zip has a truthy value and
the line is stripped of **leading and** trailing comma/space characters;
with exactly one candidate the raw value is used only when present and
truthy, else null; and the four-candidate example
`("12 Elm St","Jackson","WY","83001")` yields
`"12 Elm St, Jackson, WY 83001"`. -/
theorem mailing_address_C7 :
    (∀ (props : Props) (mappings : Mappings),
       extractMailingAddress props mappings = specMailingAddress props mappings)
    ∧ extractMailingAddress exMailFull exMailMappings
        = .ok (some (.vStr "12 Elm St, Jackson, WY 83001")) := by
  constructor
  · intro props mappings
    unfold extractMailingAddress specMailingAddress
    rcases hm : (alistGet? mappings "mailing_address").getD [] with _ | ⟨k0, m1⟩
    · rfl
    · rcases m1 with _ | ⟨k1, m2⟩
      · simp only [List.length_cons, List.length_nil, List.headD_cons]
        norm_num
        rcases hv : propsGet? props k0 with _ | v
        · rfl
        · by_cases ht : v.truthy = true <;> simp [ht]
      · simp only [List.length_cons, List.headD_cons]
        rw [if_pos (show 1 < m2.length + 1 + 1 by omega)]
        cases hv : propsGetD props k0 (.vStr "") with
        | vStr a =>
          rw [if_pos (show 1 < m2.length + 1 + 1 by omega)]
          simp only [List.get?, Option.getD_some]
          rcases m2 with _ | ⟨r2, m3⟩
          · simp only [List.length_nil, List.get?]
            rw [if_neg (show ¬(2 < 0 + 1 + 1) by norm_num),
                if_neg (show ¬(3 < 0 + 1 + 1) by norm_num)]
            rw [pyStripWs_block]
          · rcases m3 with _ | ⟨r3, m4⟩
            · simp only [List.length_cons, List.length_nil, List.get?, Option.getD_some]
              rw [if_pos (show 2 < 0 + 1 + 1 + 1 by norm_num),
                  if_neg (show ¬(3 < 0 + 1 + 1 + 1) by norm_num)]
              rw [pyStripWs_block]
            · simp only [List.length_cons, List.get?, Option.getD_some]
              rw [if_pos (show 2 < m4.length + 1 + 1 + 1 + 1 by omega),
                  if_pos (show 3 < m4.length + 1 + 1 + 1 + 1 by omega)]
              rw [pyStripWs_block]
        | vNum q => rfl
        | vBool b => rfl
        | vNull => rfl
  · rfl

/-- Counterexample to claim C7 as stated: with candidates `["a","b","c","d"]`
and only the city field (`"b" ↦ "Jackson"`) populated, the code yields
`"Jackson"` — the leading `", "` is stripped too — while the claimed
formula (candidate 0 ++ ", {c1}, {c2} {c3}" with only trailing comma/space
trimming) yields `", Jackson"`. -/
theorem mailing_address_C7_counterexample :
    extractMailingAddress exMailOnlyCity exMailMappings = .ok (some (.vStr "Jackson"))
    ∧ claimMailingCompose "" "Jackson" "" "" = ", Jackson"
    ∧ (", Jackson" : String) ≠ "Jackson" :=
  ⟨rfl, rfl, by decide⟩

end Pmtiles
